import Mathlib

/-!
A shallow embedding, in Lean, of the S&P 500 volatility-analysis notebook
(`analysis.ipynb`): the pipeline that turns a fetched close-price series
into log returns, a rolling annualised volatility, a two-way median-split
volatility-regime labelling, per-regime statistics and per-regime maximum
drawdowns.

Modelling conventions (float columns are modelled as exact rationals):

* NaN is modelled by `Option`: a `none` entry is a NaN cell.  pandas/numpy
  semantics that matter here are reproduced explicitly: `median` skips NaN,
  `dropna` removes NaN rows, any comparison against NaN is false (so
  `np.where(v <= median, Low, High)` sends NaN rows to `High`), and
  `std(ddof=1)` of fewer than two values is NaN.

* `np.log` takes irrational values at every positive rational except 1, so
  the log function is a parameter `rlog : ℚ → Option ℚ` of the embedding
  (`none` models NaN, i.e. `np.log` of a negative number); theorems assume
  of `rlog` only the facts about `np.log` they use (defined on positives,
  NaN on negatives).  `lnStub` below agrees with `np.log` on ratio 1 (the
  only rational point of `ln`), which suffices to evaluate the pipeline on
  constant-price series.

* `sqrt` (the annualisation factor `sqrt 252`, and the square root inside a
  standard deviation) is irrational, and `x ↦ x * x` is an order
  isomorphism of the nonnegative reals, so the embedding carries the
  *square* of each standard-deviation-valued column: a `_sq` name holds the
  sample variance where the source holds `std(ddof=1)`, and
  `variance * 252` where the source holds `std * sqrt 252`.  Order
  comparisons, definedness (NaN-ness) and zero-ness are unchanged by the
  squaring.
-/

/-- Insertion of one element into an ascending list of rationals. -/
def insertSorted (x : ℚ) : List ℚ → List ℚ
  | [] => [x]
  | y :: ys => if x ≤ y then x :: y :: ys else y :: insertSorted x ys

/-- Insertion sort, ascending: the sort underlying the median. -/
def sortQ : List ℚ → List ℚ
  | [] => []
  | x :: xs => insertSorted x (sortQ xs)

/-- `pandas.Series.median` of the given (already NaN-free) values: `none`
(NaN) on an empty list, the middle element of the sorted list for odd
length, the mean of the two middle elements for even length. -/
def medianQ (l : List ℚ) : Option ℚ :=
  if l.length = 0 then none
  else if l.length % 2 = 1 then (sortQ l)[l.length / 2]?
  else
    match (sortQ l)[l.length / 2 - 1]?, (sortQ l)[l.length / 2]? with
    | some a, some b => some ((a + b) / 2)
    | _, _ => none

/-- `pandas` group mean: NaN (`none`) on an empty group. -/
def meanOpt (l : List ℚ) : Option ℚ :=
  if l.length = 0 then none else some (l.sum / (l.length : ℚ))

/-- `pandas` sample variance, i.e. `std(ddof=1)` squared: NaN (`none`) on
fewer than two values, otherwise `Σ (x - mean)² / (n - 1)`. -/
def sampleVarOpt (l : List ℚ) : Option ℚ :=
  if l.length < 2 then none
  else
    some ((l.map (fun x =>
      (x - l.sum / (l.length : ℚ)) * (x - l.sum / (l.length : ℚ)))).sum /
        ((l.length : ℚ) - 1))

/-- `Series.rolling(window=w).std(ddof=1) * sqrt 252` in the squared
representation: position `i` holds `none` (NaN) while fewer than `w`
observations are available, and otherwise `252 *` the sample variance of
the trailing window `rets[i+1-w .. i]`. -/
def rolling_vol_sq (w : ℕ) (rets : List ℚ) : List (Option ℚ) :=
  (List.range rets.length).map fun i =>
    if i + 1 < w then none
    else (sampleVarOpt ((rets.take (i + 1)).drop (i + 1 - w))).map (fun v => v * 252)

/-- The two labels produced by
`np.where(..., 'Low Volatility', 'High Volatility')`. -/
inductive Regime where
  | Low
  | High
deriving DecidableEq

/-- One row of `np.where(rolling_volatility <= median_vol, Low, High)`.
In pandas/numpy a comparison against NaN is false, so a NaN row value or a
NaN median falls to the `High` branch. -/
def regimeLabel (m : Option ℚ) (v : Option ℚ) : Regime :=
  match v, m with
  | some x, some mv => if x ≤ mv then Regime.Low else Regime.High
  | _, _ => Regime.High

/-- The `volatility_regime` column: the median is taken over the defined
(non-NaN) volatilities (`Series.median` skips NaN), and every row of the
frame — including rows whose volatility is NaN — receives a label. -/
def volatility_regime (vols : List (Option ℚ)) : List Regime :=
  vols.map (regimeLabel (medianQ (vols.filterMap id)))

/-- The `log_return` values of the rows carrying label `r`: one group of
`df.groupby('volatility_regime')['log_return']`, in original row order. -/
def regimeRows (rets : List ℚ) (labels : List Regime) (r : Regime) : List ℚ :=
  ((rets.zip labels).filter (fun p => decide (p.2 = r))).map Prod.fst

/-- The group keys of `df.groupby('volatility_regime')`, in groupby's
sorted key order (the string 'High Volatility' sorts before
'Low Volatility'); a label absent from the column yields no group. -/
def presentRegimes (labels : List Regime) : List Regime :=
  (if labels.any (fun l => decide (l = Regime.High)) then [Regime.High] else []) ++
  (if labels.any (fun l => decide (l = Regime.Low)) then [Regime.Low] else [])

/-- One row of the printed `stats` table.  `_sq` fields carry the square of
the source's float (sample variance for `volatility`, `252 *` sample
variance for `annualized_volatility`); `none` is NaN. -/
structure RegimeStats where
  mean_return : Option ℚ
  volatility_sq : Option ℚ
  annualized_return : Option ℚ
  annualized_volatility_sq : Option ℚ
deriving DecidableEq

/-- The aggregations applied to one groupby group: mean and sample std
(squared), then `annualized_return = mean * 252` and
`annualized_volatility = std * sqrt 252` (squared: `variance * 252`). -/
def mkRegimeStats (l : List ℚ) : RegimeStats :=
  { mean_return := meanOpt l
    volatility_sq := sampleVarOpt l
    annualized_return := (meanOpt l).map (fun m => m * 252)
    annualized_volatility_sq := (sampleVarOpt l).map (fun v => v * 252) }

/-- The `stats` table: one `RegimeStats` row per group present. -/
def statsTable (rets : List ℚ) (labels : List Regime) : List (Regime × RegimeStats) :=
  (presentRegimes labels).map (fun r => (r, mkRegimeStats (regimeRows rets labels r)))

/-- `(1 + returns).cumprod()` with accumulator `acc` (the running product
of the factors `1 + r` seen so far). -/
def cumprodAux (acc : ℚ) : List ℚ → List ℚ
  | [] => []
  | r :: rs => (acc * (1 + r)) :: cumprodAux (acc * (1 + r)) rs

/-- `cumulative = (1 + returns).cumprod()`. -/
def cumulative (rets : List ℚ) : List ℚ := cumprodAux 1 rets

/-- `Series.cummax` continuation: running maximum `m` of the entries
already passed. -/
def cummaxAux (m : ℚ) : List ℚ → List ℚ
  | [] => []
  | x :: xs => max m x :: cummaxAux (max m x) xs

/-- `peak = cumulative.cummax()`: the running maximum starts at the first
entry of `cumulative` (there is no initial 1.0 in the series). -/
def cummax : List ℚ → List ℚ
  | [] => []
  | x :: xs => x :: cummaxAux x xs

/-- One entry of `drawdown = (cumulative - peak) / peak`, NaN-aware: when
the running peak is 0, the numerator is necessarily 0 as well (a zero
running maximum of a cumulative product means the product itself has hit
0, so the current cumulative equals the peak), and the float division
`0.0 / 0.0` is NaN (`none`).  A nonzero value over a zero peak cannot
arise from `drawdowns`, so the infinite float quotients never occur. -/
def ddOf (p : ℚ × ℚ) : Option ℚ :=
  if p.2 = 0 then none else some ((p.1 - p.2) / p.2)

/-- The `drawdown` series of `max_drawdown`. -/
def drawdowns (rets : List ℚ) : List (Option ℚ) :=
  ((cumulative rets).zip (cummax (cumulative rets))).map ddOf

/-- `Series.min` of the given NaN-free values: NaN (`none`) on an empty
series. -/
def minOpt : List ℚ → Option ℚ
  | [] => none
  | x :: xs => some (xs.foldl min x)

/-- The notebook's `max_drawdown`: `drawdown.min()` — the minimum (most
negative) drawdown of the compounded equity curve.  `Series.min` skips NaN
entries (`skipna` default), and is itself NaN (`none`) when no entry is
defined. -/
def max_drawdown (rets : List ℚ) : Option ℚ :=
  minOpt ((drawdowns rets).filterMap id)

/-- The maximum-drawdown table `mdd`: one entry per group present. -/
def mddTable (rets : List ℚ) (labels : List Regime) : List (Regime × Option ℚ) :=
  (presentRegimes labels).map (fun r => (r, max_drawdown (regimeRows rets labels r)))

/-- The rolling window hard-coded in the notebook. -/
def window : ℕ := 30

/-- The `log_return` column after `dropna` removed the leading NaN row:
`np.log(Close / Close.shift(1))` pairs each close with its predecessor; the
first observation contributes no pair.  A `none` entry is a NaN produced by
`rlog` (a nonpositive ratio). -/
def log_return (rlog : ℚ → Option ℚ) : List ℚ → List (Option ℚ)
  | c0 :: c1 :: rest => rlog (c1 / c0) :: log_return rlog (c1 :: rest)
  | _ => []

/-- Outcome of `yf.download` + column selection: either the statement
raised (`exn`, caught by the `except` branch) or it produced a list of
close prices (possibly empty — an empty frame raises nothing). -/
inductive FetchResult where
  | exn
  | rows (closes : List ℚ)

/-- Everything the run writes or prints after a successful fetch: the CSV
snapshot, the post-`dropna` return column, the rolling-volatility column,
the median, the regime labels, the two printed tables, and whether the
charts were rendered. -/
structure PipelineOutput where
  csv : List ℚ
  returns : List ℚ
  vols : List (Option ℚ)
  median_vol : Option ℚ
  labels : List Regime
  stats : List (Regime × RegimeStats)
  mdd : List (Regime × Option ℚ)
  plotted : Bool
deriving DecidableEq

/-- The straight-line body of the notebook after a successful fetch:
save the CSV, derive returns (`dropna` drops NaN rows), rolling volatility,
median, labels, the stats table and the drawdown table; finally plot (or
not). -/
def pipelineFromCloses (plotting : Bool) (rlog : ℚ → Option ℚ) (closes : List ℚ) :
    PipelineOutput :=
  let rets := (log_return rlog closes).filterMap id
  let vols := rolling_vol_sq window rets
  let labels := volatility_regime vols
  { csv := closes
    returns := rets
    vols := vols
    median_vol := medianQ (vols.filterMap id)
    labels := labels
    stats := statsTable rets labels
    mdd := mddTable rets labels
    plotted := plotting }

/-- The whole run: a raising fetch hits the `except` branch and
`sys.exit(1)` — nothing is written and nothing further is computed;
otherwise the pipeline body runs on whatever rows were fetched. -/
def runFull (plotting : Bool) (rlog : ℚ → Option ℚ) : FetchResult → Except ℕ PipelineOutput
  | FetchResult.exn => Except.error 1
  | FetchResult.rows closes => Except.ok (pipelineFromCloses plotting rlog closes)

/-- A partial model of `np.log`, exact on the one rational point of `ln`
(`ln 1 = 0`) and NaN elsewhere.  A constant positive price series only ever
feeds ratio 1 to the log, so on such inputs the pipeline through `lnStub`
is the pipeline through `np.log`. -/
def lnStub : ℚ → Option ℚ := fun q => if q = 1 then some 0 else none

/-! ### Drawdown lemmas -/

lemma cumprodAux_pos (rets : List ℚ) (h : ∀ r ∈ rets, 0 < 1 + r) :
    ∀ acc : ℚ, 0 < acc → ∀ x ∈ cumprodAux acc rets, 0 < x := by
  induction rets with
  | nil => intro acc _ x hx; simp [cumprodAux] at hx
  | cons r rs ih =>
    intro acc hacc x hx
    simp only [cumprodAux, List.mem_cons] at hx
    have hr : 0 < 1 + r := h r (by simp)
    have hacc2 : 0 < acc * (1 + r) := mul_pos hacc hr
    rcases hx with rfl | hx
    · exact hacc2
    · exact ih (fun a ha => h a (by simp [ha])) _ hacc2 x hx

lemma dd_nonpos_aux (xs : List ℚ) (hxs : ∀ x ∈ xs, 0 < x) :
    ∀ m : ℚ, 0 < m → ∀ d ∈ (xs.zip (cummaxAux m xs)).map ddOf,
      ∃ q, d = some q ∧ q ≤ 0 := by
  induction xs with
  | nil => intro m _ d hd; simp [cummaxAux] at hd
  | cons x xs ih =>
    intro m hm d hd
    have hx : 0 < x := hxs x (by simp)
    have hmax : 0 < max m x := lt_max_of_lt_right hx
    simp only [cummaxAux, List.zip_cons_cons, List.map_cons, List.mem_cons] at hd
    rcases hd with rfl | hd
    · refine ⟨(x - max m x) / max m x, ?_, ?_⟩
      · simp [ddOf, hmax.ne']
      · have hle : x - max m x ≤ 0 := sub_nonpos.mpr (le_max_right m x)
        exact div_nonpos_iff.mpr (Or.inr ⟨hle, hmax.le⟩)
    · exact ih (fun a ha => hxs a (by simp [ha])) (max m x) hmax d hd

lemma dd_zero_chain_aux (xs : List ℚ) (hxs : ∀ x ∈ xs, 0 < x) :
    ∀ m : ℚ, 0 < m → (∀ d ∈ (xs.zip (cummaxAux m xs)).map ddOf, d = some 0) →
    List.Chain (fun a b => a ≤ b) m xs := by
  induction xs with
  | nil => intro m _ _; exact List.Chain.nil
  | cons x xs ih =>
    intro m hm hdd
    have hx : 0 < x := hxs x (by simp)
    have hmax : 0 < max m x := lt_max_of_lt_right hx
    simp only [cummaxAux, List.zip_cons_cons, List.map_cons, List.mem_cons] at hdd
    have h0 : ddOf (x, max m x) = some 0 := hdd _ (Or.inl rfl)
    have hdiv : (x - max m x) / max m x = 0 := by
      simp only [ddOf, hmax.ne', if_false, Option.some.injEq] at h0
      simpa using h0
    have hxm : x = max m x := by
      rcases div_eq_zero_iff.mp hdiv with h | h
      · linarith [sub_eq_zero.mp h]
      · exact absurd h hmax.ne'
    refine List.Chain.cons ?_ ?_
    · calc m ≤ max m x := le_max_left m x
        _ = x := hxm.symm
    · have hch := ih (fun a ha => hxs a (by simp [ha])) (max m x) hmax
        (fun d hd => hdd d (Or.inr hd))
      rwa [← hxm] at hch

lemma foldl_min_le (xs : List ℚ) : ∀ x : ℚ, xs.foldl min x ≤ x ∧ ∀ y ∈ xs, xs.foldl min x ≤ y := by
  induction xs with
  | nil => intro x; exact ⟨le_refl x, by simp⟩
  | cons z zs ih =>
    intro x
    have h := ih (min x z)
    simp only [List.foldl_cons]
    refine ⟨h.1.trans (min_le_left x z), ?_⟩
    intro y hy
    rcases List.mem_cons.mp hy with rfl | hy
    · exact h.1.trans (min_le_right x y)
    · exact h.2 y hy

lemma minOpt_eq_some_zero_forall (l : List ℚ) (h : minOpt l = some 0) :
    ∀ q ∈ l, 0 ≤ q := by
  cases l with
  | nil => simp [minOpt] at h
  | cons c cs =>
    simp only [minOpt, Option.some.injEq] at h
    have hfold := foldl_min_le cs c
    intro q hq
    rcases List.mem_cons.mp hq with rfl | hq
    · linarith [hfold.1, h]
    · linarith [hfold.2 q hq, h]

/-- C4 (amended): the code's running peak ranges only over `cum_1..cum_i`
(the initial 1.0 is not part of the `cummax` series).  Provided every
return exceeds −1 (every peak is then strictly positive, so no drawdown
entry is NaN), every drawdown entry is defined and ≤ 0, and if the
reported maximum drawdown is 0 then the code's equity curve
`cum_1..cum_n` is non-decreasing. -/
theorem C4_amended_thm (rets : List ℚ) (h : ∀ r ∈ rets, 0 < 1 + r) :
    (∀ d ∈ drawdowns rets, ∃ q, d = some q ∧ q ≤ 0) ∧
    (max_drawdown rets = some 0 → List.Chain' (fun a b => a ≤ b) (cumulative rets)) := by
  cases rets with
  | nil =>
    constructor
    · intro d hd; simp [drawdowns, cumulative, cumprodAux, cummax] at hd
    · intro hmdd
      simp [max_drawdown, drawdowns, cumulative, cumprodAux, cummax, minOpt] at hmdd
  | cons r rs =>
    have hr : 0 < 1 + r := h r (by simp)
    have ha : 0 < 1 * (1 + r) := by rw [one_mul]; exact hr
    have hpos : ∀ x ∈ cumprodAux (1 * (1 + r)) rs, 0 < x :=
      cumprodAux_pos rs (fun a hx => h a (by simp [hx])) _ ha
    have hdds : drawdowns (r :: rs) =
        ddOf (1 * (1 + r), 1 * (1 + r)) ::
          ((cumprodAux (1 * (1 + r)) rs).zip
            (cummaxAux (1 * (1 + r)) (cumprodAux (1 * (1 + r)) rs))).map ddOf := by
      simp [drawdowns, cumulative, cumprodAux, cummax]
    have hd0 : ddOf (1 * (1 + r), 1 * (1 + r)) = some 0 := by
      simp [ddOf, ha.ne', hr.ne']
    have hsome : ∀ d ∈ drawdowns (r :: rs), ∃ q, d = some q ∧ q ≤ 0 := by
      intro d hd
      rw [hdds] at hd
      rcases List.mem_cons.mp hd with rfl | hd
      · exact ⟨0, hd0, le_refl 0⟩
      · exact dd_nonpos_aux _ hpos _ ha d hd
    refine ⟨hsome, ?_⟩
    intro hmdd
    have hge := minOpt_eq_some_zero_forall ((drawdowns (r :: rs)).filterMap id) hmdd
    have hall0 : ∀ d ∈ drawdowns (r :: rs), d = some 0 := by
      intro d hd
      obtain ⟨q, hdq, hq⟩ := hsome d hd
      subst hdq
      have hqfm : q ∈ (drawdowns (r :: rs)).filterMap id :=
        List.mem_filterMap.mpr ⟨some q, hd, rfl⟩
      have hq0 : q = 0 := le_antisymm hq (hge q hqfm)
      rw [hq0]
    have hch : List.Chain (fun a b => a ≤ b) (1 * (1 + r))
        (cumprodAux (1 * (1 + r)) rs) := by
      refine dd_zero_chain_aux _ hpos _ ha ?_
      intro d hd
      refine hall0 d ?_
      rw [hdds]
      exact List.mem_cons.mpr (Or.inr hd)
    show List.Chain (fun a b => a ≤ b) (1 * (1 + r)) (cumprodAux (1 * (1 + r)) rs)
    exact hch

/-- C4 counterexample: on the one-element return sequence `[-1/2]` the code
reports a maximum drawdown of `0`, yet the equity curve that starts at 1.0
(`1 :: cumulative`) is strictly decreasing — `cummax` never sees the
initial 1.0, so a curve that only falls at its first step reports no
drawdown. -/
theorem C4_counterexample :
    max_drawdown [-(1:ℚ)/2] = some 0 ∧
    ¬ List.Chain' (fun a b => a ≤ b) (1 :: cumulative [-(1:ℚ)/2]) := by
  have hc : cumulative [-(1:ℚ)/2] = [1/2] := by
    norm_num [cumulative, cumprodAux]
  constructor
  · rw [max_drawdown, drawdowns, hc]
    norm_num [cummax, cummaxAux, ddOf, minOpt, List.filterMap_cons]
  · rw [hc]
    simp only [List.chain'_cons, List.chain'_singleton, and_true]
    norm_num

/-- C4 witness: the amended statement evaluated on the concrete return
sequence `[1]`. -/
theorem C4_witness :
    (∀ r ∈ [(1:ℚ)], 0 < 1 + r) ∧
    ((∀ d ∈ drawdowns [(1:ℚ)], ∃ q, d = some q ∧ q ≤ 0) ∧
      (max_drawdown [(1:ℚ)] = some 0 →
        List.Chain' (fun a b => a ≤ b) (cumulative [(1:ℚ)]))) := by
  have h : ∀ r ∈ [(1:ℚ)], 0 < 1 + r := by norm_num
  exact ⟨h, C4_amended_thm [(1:ℚ)] h⟩

/-- C8 (amended): a regime partition with exactly one observation has an
undefined (NaN, `none`) standard deviation — and hence an undefined
annualised volatility — not zero and not an error (the aggregation is
total and the run continues); its maximum drawdown is defined and equal
to 0 provided the single return is not exactly −1 (the one-point equity
curve `1 + r` is then nonzero and coincides with its own running peak).
At `r = −1` the equity point is `0.0` and the drawdown is NaN
(`0.0 / 0.0`), so the reported maximum drawdown is NaN, not 0. -/
theorem C8_amended_thm (r : ℚ) (h : 1 + r ≠ 0) :
    (mkRegimeStats [r]).volatility_sq = none ∧
    (mkRegimeStats [r]).annualized_volatility_sq = none ∧
    max_drawdown [r] = some 0 := by
  refine ⟨rfl, rfl, ?_⟩
  have ha : (1:ℚ) * (1 + r) ≠ 0 := by rw [one_mul]; exact h
  simp [max_drawdown, drawdowns, cumulative, cumprodAux, cummax, cummaxAux, minOpt,
    ddOf, h, ha, List.filterMap_cons]

/-- C8 counterexample: at the single return `−1` the standard deviation is
still NaN, but the reported maximum drawdown is NaN as well (the equity
point is `1 + (−1) = 0`, the peak is 0, and `0.0 / 0.0` is NaN, which
`Series.min` then skips, leaving nothing) — not the defined 0 the claim
asserts for every one-observation partition. -/
theorem C8_counterexample :
    (mkRegimeStats [(-1:ℚ)]).volatility_sq = none ∧
    max_drawdown [(-1:ℚ)] = none := by
  refine ⟨rfl, ?_⟩
  norm_num [max_drawdown, drawdowns, cumulative, cumprodAux, cummax, cummaxAux,
    minOpt, ddOf, List.filterMap_cons]

/-- C8 witness: the amended statement evaluated at the single return `1`. -/
theorem C8_witness :
    ((1:ℚ) + 1 ≠ 0) ∧
    ((mkRegimeStats [(1:ℚ)]).volatility_sq = none ∧
      (mkRegimeStats [(1:ℚ)]).annualized_volatility_sq = none ∧
      max_drawdown [(1:ℚ)] = some 0) := by
  have h : (1:ℚ) + 1 ≠ 0 := by norm_num
  exact ⟨h, C8_amended_thm 1 h⟩

/-- C9: the console statistics output — the per-regime statistics table and
the per-regime maximum-drawdown table — is identical whether the
chart-rendering backend is available or not: plotting availability only
decides whether figures are rendered after both tables are computed. -/
theorem C9_thm (rlog : ℚ → Option ℚ) (f : FetchResult) :
    (runFull true rlog f).map (fun o => (o.stats, o.mdd)) =
      (runFull false rlog f).map (fun o => (o.stats, o.mdd)) := by
  cases f <;> rfl

/-- C3 (amended): a raising fetch (source unreachable) makes the run exit
with status 1 before any file write or computation, and no statistics are
printed; but a fetch that *returns* with zero observations does not fail —
the empty snapshot is written and empty statistics tables are printed. -/
theorem C3_amended_thm (plotting : Bool) (rlog : ℚ → Option ℚ) :
    runFull plotting rlog FetchResult.exn = Except.error 1 ∧
    ∃ out, runFull plotting rlog (FetchResult.rows []) = Except.ok out ∧
      out.csv = [] ∧ out.stats = [] ∧ out.mdd = [] :=
  ⟨rfl, pipelineFromCloses plotting rlog [], rfl, rfl, rfl, rfl⟩

/-- C3 counterexample: a fetch returning zero observations does not halt
the run — the claim says it must fail before any file write, but the run
succeeds, writes the (empty) snapshot and prints empty statistics. -/
theorem C3_counterexample :
    runFull false lnStub (FetchResult.rows []) =
      Except.ok { csv := [], returns := [], vols := [], median_vol := none,
                  labels := [], stats := [], mdd := [], plotted := false } := rfl

/-! ### Log-return lemmas -/

lemma log_return_length (rlog : ℚ → Option ℚ) (closes : List ℚ) :
    (log_return rlog closes).length = closes.length - 1 := by
  induction closes with
  | nil => rfl
  | cons c rest ih =>
    cases rest with
    | nil => rfl
    | cons c1 r2 =>
      simp only [log_return, List.length_cons] at ih ⊢
      omega

lemma log_return_getElem (rlog : ℚ → Option ℚ) :
    ∀ (closes : List ℚ) (i : ℕ) (ci ci1 : ℚ),
    closes[i]? = some ci → closes[i + 1]? = some ci1 →
    (log_return rlog closes)[i]? = some (rlog (ci1 / ci)) := by
  intro closes
  induction closes with
  | nil => intro i ci ci1 h1 _; simp at h1
  | cons c rest ih =>
    intro i ci ci1 h1 h2
    cases rest with
    | nil =>
      rw [List.getElem?_cons_succ] at h2
      simp at h2
    | cons c1 r2 =>
      cases i with
      | zero =>
        simp only [List.getElem?_cons_zero, Option.some.injEq] at h1
        rw [List.getElem?_cons_succ] at h2
        simp only [List.getElem?_cons_zero, Option.some.injEq] at h2
        subst h1; subst h2
        simp only [log_return, List.getElem?_cons_zero]
      | succ n =>
        rw [List.getElem?_cons_succ] at h1 h2
        have hr := ih n ci ci1 h1 h2
        show (rlog (c1 / c) :: log_return rlog (c1 :: r2))[n + 1]? = some (rlog (ci1 / ci))
        rw [List.getElem?_cons_succ]
        exact hr

lemma log_return_mem_ratio (rlog : ℚ → Option ℚ) :
    ∀ closes : List ℚ, (∀ c ∈ closes, 0 < c) →
    ∀ v ∈ log_return rlog closes, ∃ q : ℚ, 0 < q ∧ v = rlog q := by
  intro closes
  induction closes with
  | nil => intro _ v hv; simp [log_return] at hv
  | cons c rest ih =>
    intro hpos v hv
    cases rest with
    | nil => simp [log_return] at hv
    | cons c1 r2 =>
      simp only [log_return, List.mem_cons] at hv
      rcases hv with rfl | hv
      · exact ⟨c1 / c, div_pos (hpos c1 (by simp)) (hpos c (by simp)), rfl⟩
      · exact ih (fun a ha => hpos a (by simp [ha])) v hv

lemma filterMap_id_length_all_some :
    ∀ l : List (Option ℚ), (∀ v ∈ l, v.isSome = true) →
    (l.filterMap id).length = l.length := by
  intro l
  induction l with
  | nil => intro _; rfl
  | cons v vs ih =>
    intro h
    cases v with
    | none => have hv := h none (by simp); simp at hv
    | some a =>
      have hrest := ih (fun u hu => h u (by simp [hu]))
      simp [List.filterMap_cons, hrest]

lemma filterMap_id_length_lt_of_none :
    ∀ (l : List (Option ℚ)) (i : ℕ), l[i]? = some none →
    (l.filterMap id).length < l.length := by
  intro l
  induction l with
  | nil => intro i h; simp at h
  | cons v vs ih =>
    intro i h
    cases i with
    | zero =>
      simp only [List.getElem?_cons_zero, Option.some.injEq] at h
      subst h
      simp only [List.filterMap_cons, id, List.length_cons]
      exact Nat.lt_succ_of_le (List.length_filterMap_le id vs)
    | succ n =>
      rw [List.getElem?_cons_succ] at h
      have hlt := ih n h
      cases v with
      | none =>
        simp only [List.filterMap_cons, id, List.length_cons]
        omega
      | some a =>
        simp only [List.filterMap_cons, id, List.length_cons]
        omega

/-- C6: for a price series of length L with positive closes, the derived
return series (after `dropna`) has length L − 1, and the entry at step `i`
is exactly the log of the ratio `close_{i+1} / close_i` — the first
observation contributes no return row (there is no zero- or null-filling;
`rlog` stands for `np.log`, assumed defined on positive arguments). -/
theorem C6_thm (rlog : ℚ → Option ℚ) (closes : List ℚ)
    (hpos : ∀ c ∈ closes, 0 < c)
    (hlog : ∀ q : ℚ, 0 < q → (rlog q).isSome = true) :
    ((log_return rlog closes).filterMap id).length = closes.length - 1 ∧
    ∀ (i : ℕ) (ci ci1 : ℚ), closes[i]? = some ci → closes[i + 1]? = some ci1 →
      (log_return rlog closes)[i]? = some (rlog (ci1 / ci)) := by
  constructor
  · have hall : ∀ v ∈ log_return rlog closes, v.isSome = true := by
      intro v hv
      obtain ⟨q, hq, rfl⟩ := log_return_mem_ratio rlog closes hpos v hv
      exact hlog q hq
    rw [filterMap_id_length_all_some _ hall, log_return_length]
  · intro i ci ci1 h1 h2
    exact log_return_getElem rlog closes i ci ci1 h1 h2

/-- C6 witness: the theorem evaluated on the concrete price series
`[1, 2, 4]` with the total log model `fun q => some q`. -/
theorem C6_witness :
    (∀ c ∈ [(1:ℚ), 2, 4], 0 < c) ∧
    (∀ q : ℚ, 0 < q → ((fun q => some q) q).isSome = true) ∧
    (((log_return (fun q => some q) [(1:ℚ), 2, 4]).filterMap id).length =
        [(1:ℚ), 2, 4].length - 1 ∧
      ∀ (i : ℕ) (ci ci1 : ℚ),
        [(1:ℚ), 2, 4][i]? = some ci → [(1:ℚ), 2, 4][i + 1]? = some ci1 →
        (log_return (fun q => some q) [(1:ℚ), 2, 4])[i]? = some (some (ci1 / ci))) := by
  have hpos : ∀ c ∈ [(1:ℚ), 2, 4], 0 < c := by norm_num
  exact ⟨hpos, fun q _ => rfl, C6_thm (fun q => some q) [(1:ℚ), 2, 4] hpos (fun q _ => rfl)⟩

/-- C10: a negative close price never aborts the run and raises nothing in
the notebook's own code: the NaN log returns its negative ratios induce
(`rlog` of a negative argument, modelling `np.log`) are silently removed
by `dropna` before the volatility computation, and the pipeline
continues on the remaining rows (the run still returns `ok`, and the
return column the analysis consumes is exactly the defined entries —
strictly fewer than L − 1 of them). -/
theorem C10_thm (plotting : Bool) (rlog : ℚ → Option ℚ) (closes : List ℚ)
    (i : ℕ) (p c : ℚ)
    (hneg : ∀ q : ℚ, q < 0 → rlog q = none)
    (hp0 : closes[i]? = some p) (hc0 : closes[i + 1]? = some c)
    (hp : 0 < p) (hc : c < 0) :
    ∃ out, runFull plotting rlog (FetchResult.rows closes) = Except.ok out ∧
      (log_return rlog closes)[i]? = some none ∧
      out.returns = (log_return rlog closes).filterMap id ∧
      out.returns.length < closes.length - 1 := by
  have hnone : (log_return rlog closes)[i]? = some none := by
    rw [log_return_getElem rlog closes i p c hp0 hc0,
      hneg (c / p) (div_neg_of_neg_of_pos hc hp)]
  refine ⟨pipelineFromCloses plotting rlog closes, rfl, hnone, rfl, ?_⟩
  calc (pipelineFromCloses plotting rlog closes).returns.length
      = ((log_return rlog closes).filterMap id).length := rfl
    _ < (log_return rlog closes).length := filterMap_id_length_lt_of_none _ i hnone
    _ = closes.length - 1 := log_return_length rlog closes

/-- C10 witness: the theorem evaluated on the concrete fetched series
`[1, -1, 1]`, whose middle close is negative. -/
theorem C10_witness :
    (∀ q : ℚ, q < 0 → lnStub q = none) ∧
    ([(1:ℚ), -1, 1][0]? = some (1:ℚ)) ∧ ([(1:ℚ), -1, 1][0 + 1]? = some (-1:ℚ)) ∧
    ((0:ℚ) < 1) ∧ ((-1:ℚ) < 0) ∧
    (∃ out, runFull false lnStub (FetchResult.rows [(1:ℚ), -1, 1]) = Except.ok out ∧
      (log_return lnStub [(1:ℚ), -1, 1])[0]? = some none ∧
      out.returns = (log_return lnStub [(1:ℚ), -1, 1]).filterMap id ∧
      out.returns.length < [(1:ℚ), -1, 1].length - 1) := by
  have hneg : ∀ q : ℚ, q < 0 → lnStub q = none := by
    intro q hq
    have hne : q ≠ 1 := by intro h; rw [h] at hq; norm_num at hq
    simp [lnStub, hne]
  refine ⟨hneg, rfl, rfl, by norm_num, by norm_num, ?_⟩
  exact C10_thm false lnStub [(1:ℚ), -1, 1] 0 1 (-1) hneg rfl rfl (by norm_num) (by norm_num)

/-! ### Rolling-window and median lemmas -/

lemma rolling_vol_sq_getElem (w : ℕ) (rets : List ℚ) (i : ℕ) (h : i < rets.length) :
    (rolling_vol_sq w rets)[i]? =
      some (if i + 1 < w then none
        else (sampleVarOpt ((rets.take (i + 1)).drop (i + 1 - w))).map (fun v => v * 252)) := by
  simp only [rolling_vol_sq, List.getElem?_map, List.getElem?_range h, Option.map_some']

/-- C5: for a rolling window `w` (the notebook uses `window = 30`), the
first `w − 1` entries of the volatility series are undefined (NaN); entry
`w` (1-indexed over the return series, position `w − 1` here) is computed
from exactly the first `w` returns — the sample (`ddof=1`) standard
deviation of that window times `sqrt 252` (squared representation:
`252 *` the sample variance) — and whenever `2 ≤ w` that entry is the
first defined value of the series. -/
theorem C5_thm (w : ℕ) (rets : List ℚ) (hw : 1 ≤ w) (hlen : w ≤ rets.length) :
    (∀ i, i + 1 < w → (rolling_vol_sq w rets)[i]? = some none) ∧
    (rolling_vol_sq w rets)[w - 1]? =
      some ((sampleVarOpt (rets.take w)).map (fun v => v * 252)) ∧
    (2 ≤ w → ∃ v : ℚ, (rolling_vol_sq w rets)[w - 1]? = some (some v)) := by
  have hw1 : w - 1 < rets.length := by omega
  have hw11 : w - 1 + 1 = w := by omega
  have hmain : (rolling_vol_sq w rets)[w - 1]? =
      some ((sampleVarOpt (rets.take w)).map (fun v => v * 252)) := by
    rw [rolling_vol_sq_getElem w rets (w - 1) hw1, hw11, if_neg (by omega),
      Nat.sub_self, List.drop_zero]
  refine ⟨?_, hmain, ?_⟩
  · intro i hi
    have hilen : i < rets.length := by omega
    rw [rolling_vol_sq_getElem w rets i hilen, if_pos hi]
  · intro h2
    have hlen2 : (rets.take w).length = w := by
      rw [List.length_take]; omega
    have hvar : ∃ v, sampleVarOpt (rets.take w) = some v := by
      unfold sampleVarOpt
      rw [hlen2, if_neg (by omega)]
      exact ⟨_, rfl⟩
    obtain ⟨v, hv⟩ := hvar
    refine ⟨v * 252, ?_⟩
    rw [hmain, hv]
    rfl

/-- C5 witness: the theorem evaluated at window 2 on the concrete return
series `[0, 1, 2]`. -/
theorem C5_witness :
    (1 ≤ 2) ∧ (2 ≤ [(0:ℚ), 1, 2].length) ∧
    ((∀ i, i + 1 < 2 → (rolling_vol_sq 2 [(0:ℚ), 1, 2])[i]? = some none) ∧
      (rolling_vol_sq 2 [(0:ℚ), 1, 2])[2 - 1]? =
        some ((sampleVarOpt ([(0:ℚ), 1, 2].take 2)).map (fun v => v * 252)) ∧
      (2 ≤ 2 → ∃ v : ℚ, (rolling_vol_sq 2 [(0:ℚ), 1, 2])[2 - 1]? = some (some v))) :=
  ⟨by norm_num, by norm_num, C5_thm 2 [(0:ℚ), 1, 2] (by norm_num) (by norm_num)⟩

lemma length_insertSorted (x : ℚ) (l : List ℚ) :
    (insertSorted x l).length = l.length + 1 := by
  induction l with
  | nil => rfl
  | cons y ys ih =>
    simp only [insertSorted]
    split
    · simp
    · simp [ih]

lemma length_sortQ (l : List ℚ) : (sortQ l).length = l.length := by
  induction l with
  | nil => rfl
  | cons x xs ih => simp [sortQ, length_insertSorted, ih]

lemma medianQ_isSome (l : List ℚ) (h : l ≠ []) : ∃ m, medianQ l = some m := by
  have hpos : 0 < l.length := List.length_pos.mpr h
  unfold medianQ
  rw [if_neg (by omega)]
  by_cases hodd : l.length % 2 = 1
  · rw [if_pos hodd]
    have hlt : l.length / 2 < (sortQ l).length := by rw [length_sortQ]; omega
    rw [List.getElem?_eq_getElem hlt]
    exact ⟨_, rfl⟩
  · rw [if_neg hodd]
    have hlt1 : l.length / 2 - 1 < (sortQ l).length := by rw [length_sortQ]; omega
    have hlt2 : l.length / 2 < (sortQ l).length := by rw [length_sortQ]; omega
    rw [List.getElem?_eq_getElem hlt1, List.getElem?_eq_getElem hlt2]
    exact ⟨_, rfl⟩

/-- C7: regime assignment is total and exhaustive over rows with a defined
rolling volatility: such a row's label exists and is exactly one value of
{Low, High}, it is `Low` precisely when the row's volatility is ≤ the
median of the defined volatilities (which exists), and in particular a row
exactly equal to the median is labelled `Low`. -/
theorem C7_thm (vols : List (Option ℚ)) (i : ℕ) (x : ℚ)
    (hx : vols[i]? = some (some x)) :
    ∃ mv, medianQ (vols.filterMap id) = some mv ∧
      (volatility_regime vols)[i]? =
        some (if x ≤ mv then Regime.Low else Regime.High) ∧
      ((volatility_regime vols)[i]? = some Regime.Low ↔ x ≤ mv) := by
  have hmem : some x ∈ vols := List.getElem?_mem hx
  have hxmem : x ∈ vols.filterMap id := List.mem_filterMap.mpr ⟨some x, hmem, rfl⟩
  have hne : vols.filterMap id ≠ [] := List.ne_nil_of_mem hxmem
  obtain ⟨mv, hmv⟩ := medianQ_isSome _ hne
  have hlab : (volatility_regime vols)[i]? =
      some (if x ≤ mv then Regime.Low else Regime.High) := by
    rw [volatility_regime, List.getElem?_map, hx, hmv]
    simp only [Option.map_some']
    rfl
  refine ⟨mv, hmv, hlab, ?_⟩
  rw [hlab]
  by_cases hle : x ≤ mv
  · simp [hle]
  · simp [hle]

/-- C7 witness: the theorem evaluated on the one-row volatility column
`[some 0]`. -/
theorem C7_witness :
    ([some (0:ℚ)][0]? = some (some (0:ℚ))) ∧
    (∃ mv, medianQ ([some (0:ℚ)].filterMap id) = some mv ∧
      (volatility_regime [some (0:ℚ)])[0]? =
        some (if (0:ℚ) ≤ mv then Regime.Low else Regime.High) ∧
      ((volatility_regime [some (0:ℚ)])[0]? = some Regime.Low ↔ (0:ℚ) ≤ mv)) :=
  ⟨rfl, C7_thm [some (0:ℚ)] 0 0 rfl⟩

/-! ### Pipeline lemmas: membership in groups, constant-price evaluation -/

lemma mem_regimeRows :
    ∀ (rets : List ℚ) (labels : List Regime) (i : ℕ) (x : ℚ) (r : Regime),
    rets[i]? = some x → labels[i]? = some r → x ∈ regimeRows rets labels r := by
  intro rets
  induction rets with
  | nil => intro labels i x r h1 _; simp at h1
  | cons a as ih =>
    intro labels i x r h1 h2
    cases labels with
    | nil => simp at h2
    | cons b bs =>
      cases i with
      | zero =>
        simp only [List.getElem?_cons_zero, Option.some.injEq] at h1 h2
        subst h1; subst h2
        simp [regimeRows, List.zip_cons_cons, List.filter_cons]
      | succ n =>
        rw [List.getElem?_cons_succ] at h1 h2
        have hmem := ih bs n x r h1 h2
        simp only [regimeRows, List.zip_cons_cons, List.filter_cons]
        split
        · simp only [List.map_cons, List.mem_cons]
          exact Or.inr hmem
        · exact hmem

/-- C1 (amended): a row whose rolling volatility is undefined (NaN) is
*not* excluded downstream: it is assigned a regime — always `High`, since
a NaN comparison is false — and its log return is a member of the
High-regime group from which that regime's statistics and drawdown are
computed.  (Only the median skips the NaN rows.) -/
theorem C1_amended_thm (w : ℕ) (rets : List ℚ) (i : ℕ)
    (h : (rolling_vol_sq w rets)[i]? = some none) :
    (volatility_regime (rolling_vol_sq w rets))[i]? = some Regime.High ∧
    ∃ x, rets[i]? = some x ∧
      x ∈ regimeRows rets (volatility_regime (rolling_vol_sq w rets)) Regime.High := by
  have hilen : i < rets.length := by
    by_contra hc
    push_neg at hc
    rw [List.getElem?_eq_none (by simpa [rolling_vol_sq] using hc)] at h
    simp at h
  have hlab : (volatility_regime (rolling_vol_sq w rets))[i]? = some Regime.High := by
    rw [volatility_regime, List.getElem?_map, h]
    rfl
  refine ⟨hlab, ?_⟩
  obtain ⟨x, hx⟩ : ∃ x, rets[i]? = some x := by
    rw [List.getElem?_eq_getElem hilen]; exact ⟨_, rfl⟩
  exact ⟨x, hx, mem_regimeRows rets _ i x Regime.High hx hlab⟩

/-- C1 witness: the amended statement evaluated at window 2 on the concrete
return series `[5, 6]`, whose first row has an undefined volatility. -/
theorem C1_witness :
    ((rolling_vol_sq 2 [(5:ℚ), 6])[0]? = some none) ∧
    ((volatility_regime (rolling_vol_sq 2 [(5:ℚ), 6]))[0]? = some Regime.High ∧
      ∃ x, [(5:ℚ), 6][0]? = some x ∧
        x ∈ regimeRows [(5:ℚ), 6] (volatility_regime (rolling_vol_sq 2 [(5:ℚ), 6]))
          Regime.High) :=
  ⟨rfl, C1_amended_thm 2 [(5:ℚ), 6] 0 rfl⟩

lemma log_return_lnStub_const :
    ∀ n : ℕ, log_return lnStub (List.replicate (n + 1) 1) = List.replicate n (some 0) := by
  intro n
  induction n with
  | zero => rfl
  | succ m ih =>
    have h1 : lnStub ((1:ℚ) / 1) = some 0 := by norm_num [lnStub]
    simp only [List.replicate_succ] at ih ⊢
    simp only [log_return]
    rw [h1, ih]

lemma filterMap_id_replicate_some (n : ℕ) (c : ℚ) :
    (List.replicate n (some c)).filterMap id = List.replicate n c := by
  induction n with
  | zero => rfl
  | succ m ih => simp [List.replicate_succ, List.filterMap_cons, ih]

lemma filterMap_id_replicate_none (n : ℕ) :
    (List.replicate n (none : Option ℚ)).filterMap id = [] := by
  induction n with
  | zero => rfl
  | succ m ih => simp [List.replicate_succ, List.filterMap_cons, ih]

lemma sampleVarOpt_replicate_zero (n : ℕ) (h : 2 ≤ n) :
    sampleVarOpt (List.replicate n (0:ℚ)) = some 0 := by
  have hn : ¬ (List.replicate n (0:ℚ)).length < 2 := by
    rw [List.length_replicate]; omega
  unfold sampleVarOpt
  rw [if_neg hn]
  congr 1
  simp [List.map_replicate, List.sum_replicate]

lemma meanOpt_replicate_zero (n : ℕ) (h : 1 ≤ n) :
    meanOpt (List.replicate n (0:ℚ)) = some 0 := by
  have hn : ¬ (List.replicate n (0:ℚ)).length = 0 := by
    rw [List.length_replicate]; omega
  unfold meanOpt
  rw [if_neg hn]
  simp [List.sum_replicate]

lemma rolling_vol_sq_30_zeros :
    rolling_vol_sq 30 (List.replicate 30 (0:ℚ)) = List.replicate 29 none ++ [some 0] := by
  have hr : List.range 30 = List.range 29 ++ [29] := List.range_succ 29
  unfold rolling_vol_sq
  rw [List.length_replicate, hr, List.map_append]
  have h1 : (List.range 29).map (fun i => if i + 1 < 30 then none
      else (sampleVarOpt (((List.replicate 30 (0:ℚ)).take (i + 1)).drop (i + 1 - 30))).map
        (fun v => v * 252)) = List.replicate 29 (none : Option ℚ) := by
    have hmem : ∀ b ∈ (List.range 29).map (fun i => if i + 1 < 30 then none
        else (sampleVarOpt (((List.replicate 30 (0:ℚ)).take (i + 1)).drop (i + 1 - 30))).map
          (fun v => v * 252)), b = (none : Option ℚ) := by
      intro b hb
      obtain ⟨i, hi, rfl⟩ := List.mem_map.mp hb
      rw [List.mem_range] at hi
      rw [if_pos (by omega)]
    have heq := List.eq_replicate_of_mem hmem
    rwa [List.length_map, List.length_range] at heq
  rw [h1]
  have h2 : sampleVarOpt (((List.replicate 30 (0:ℚ)).take (29 + 1)).drop (29 + 1 - 30)) =
      some 0 := by
    rw [show (29:ℕ) + 1 - 30 = 0 from rfl, List.drop_zero, List.take_replicate,
      show min (29 + 1) 30 = 30 from rfl]
    exact sampleVarOpt_replicate_zero 30 (by omega)
  simp only [List.map_cons, List.map_nil]
  rw [if_neg (by omega), h2]
  norm_num

/-- C1 counterexample: on the concrete fetched series of 31 constant
prices (window 30), row 0 of the trimmed frame has an undefined (NaN)
volatility, yet it is assigned the `High` regime, and the High group whose
statistics are printed consists of exactly the 29 undefined-volatility
rows (the only defined-volatility row is labelled `Low`). -/
theorem C1_counterexample :
    (pipelineFromCloses false lnStub (List.replicate 31 1)).vols[0]? = some none ∧
    (pipelineFromCloses false lnStub (List.replicate 31 1)).labels[0]? = some Regime.High ∧
    (regimeRows (pipelineFromCloses false lnStub (List.replicate 31 1)).returns
      (pipelineFromCloses false lnStub (List.replicate 31 1)).labels Regime.High).length = 29 ∧
    (pipelineFromCloses false lnStub (List.replicate 31 1)).stats[0]? =
      some (Regime.High, RegimeStats.mk (some 0) (some 0) (some 0) (some 0)) := by
  have e1 : (log_return lnStub (List.replicate 31 1)).filterMap id =
      List.replicate 30 (0:ℚ) := by
    rw [log_return_lnStub_const 30, filterMap_id_replicate_some]
  have e2 : rolling_vol_sq window ((log_return lnStub (List.replicate 31 1)).filterMap id) =
      List.replicate 29 none ++ [some 0] := by
    rw [e1]
    exact rolling_vol_sq_30_zeros
  have hmed : medianQ ((List.replicate 29 (none : Option ℚ) ++ [some 0]).filterMap id) =
      some 0 := by
    rw [List.filterMap_append, filterMap_id_replicate_none]
    rfl
  have e3 : volatility_regime
      (rolling_vol_sq window ((log_return lnStub (List.replicate 31 1)).filterMap id)) =
      List.replicate 29 Regime.High ++ [Regime.Low] := by
    rw [e2]
    unfold volatility_regime
    rw [hmed, List.map_append, List.map_replicate]
    norm_num [regimeLabel]
  have e4 : statsTable (List.replicate 30 (0:ℚ))
      (List.replicate 29 Regime.High ++ [Regime.Low]) =
      [(Regime.High, mkRegimeStats (List.replicate 29 0)),
       (Regime.Low, mkRegimeStats [0])] := rfl
  have e5 : mkRegimeStats (List.replicate 29 (0:ℚ)) =
      RegimeStats.mk (some 0) (some 0) (some 0) (some 0) := by
    unfold mkRegimeStats
    rw [meanOpt_replicate_zero 29 (by omega), sampleVarOpt_replicate_zero 29 (by omega)]
    norm_num
  refine ⟨?_, ?_, ?_, ?_⟩
  · show (rolling_vol_sq window
      ((log_return lnStub (List.replicate 31 1)).filterMap id))[0]? = some none
    rw [e2]
    rfl
  · show (volatility_regime (rolling_vol_sq window
      ((log_return lnStub (List.replicate 31 1)).filterMap id)))[0]? = some Regime.High
    rw [e3]
    rfl
  · show (regimeRows ((log_return lnStub (List.replicate 31 1)).filterMap id)
      (volatility_regime (rolling_vol_sq window
        ((log_return lnStub (List.replicate 31 1)).filterMap id))) Regime.High).length = 29
    rw [e3, e1]
    rfl
  · show (statsTable ((log_return lnStub (List.replicate 31 1)).filterMap id)
      (volatility_regime (rolling_vol_sq window
        ((log_return lnStub (List.replicate 31 1)).filterMap id))))[0]? =
      some (Regime.High, RegimeStats.mk (some 0) (some 0) (some 0) (some 0))
    rw [e3, e1, e4, e5]
    rfl

lemma rolling_vol_sq_all_none (w : ℕ) (rets : List ℚ) (hlt : rets.length < w) :
    ∀ v ∈ rolling_vol_sq w rets, v = none := by
  intro v hv
  simp only [rolling_vol_sq, List.mem_map] at hv
  obtain ⟨i, hi, rfl⟩ := hv
  rw [List.mem_range] at hi
  exact if_pos (by omega)

/-- C2 (amended): with fewer than `window + 1` fetched observations the run
does not fail — there is no `InsufficientHistoryError` anywhere in the
notebook.  Every rolling volatility is NaN, the median is NaN, every row
is labelled `High Volatility` (NaN comparisons are false), and the
statistics of whatever rows exist are printed for that one group. -/
theorem C2_amended_thm (plotting : Bool) (rlog : ℚ → Option ℚ) (closes : List ℚ)
    (h : closes.length < window + 1) :
    ∃ out, runFull plotting rlog (FetchResult.rows closes) = Except.ok out ∧
      out.median_vol = none ∧ ∀ lab ∈ out.labels, lab = Regime.High := by
  have hw : window = 30 := rfl
  have hlen : ((log_return rlog closes).filterMap id).length < window := by
    have h1 := List.length_filterMap_le id (log_return rlog closes)
    have h2 := log_return_length rlog closes
    omega
  have hnone := rolling_vol_sq_all_none window _ hlen
  have hfm : (rolling_vol_sq window
      ((log_return rlog closes).filterMap id)).filterMap id = [] := by
    rw [List.filterMap_eq_nil_iff]
    intro a ha
    exact hnone a ha
  refine ⟨pipelineFromCloses plotting rlog closes, rfl, ?_, ?_⟩
  · show medianQ ((rolling_vol_sq window
      ((log_return rlog closes).filterMap id)).filterMap id) = none
    rw [hfm]
    rfl
  · show ∀ lab ∈ volatility_regime (rolling_vol_sq window
      ((log_return rlog closes).filterMap id)), lab = Regime.High
    intro lab hlab
    unfold volatility_regime at hlab
    rw [hfm] at hlab
    obtain ⟨v, hv, rfl⟩ := List.mem_map.mp hlab
    rw [hnone v hv]
    rfl

/-- C2 witness: the amended statement evaluated on the concrete 3-price
fetched series `[1, 1, 1]` (3 < window + 1). -/
theorem C2_witness :
    (List.length [(1:ℚ), 1, 1] < window + 1) ∧
    (∃ out, runFull false lnStub (FetchResult.rows [(1:ℚ), 1, 1]) = Except.ok out ∧
      out.median_vol = none ∧ ∀ lab ∈ out.labels, lab = Regime.High) := by
  have h : List.length [(1:ℚ), 1, 1] < window + 1 := by
    show 3 < 31
    norm_num
  exact ⟨h, C2_amended_thm false lnStub [(1:ℚ), 1, 1] h⟩

/-- C2 counterexample: on the concrete fetched series `[1, 1, 1]` (3
observations, fewer than window + 1 = 31, so the trimmed volatility series
is entirely NaN) the run does not fail with any error: it completes
normally and prints a non-empty statistics table and drawdown table for
the `High Volatility` group. -/
theorem C2_counterexample :
    runFull false lnStub (FetchResult.rows [(1:ℚ), 1, 1]) =
      Except.ok { csv := [(1:ℚ), 1, 1], returns := [0, 0], vols := [none, none],
                  median_vol := none, labels := [Regime.High, Regime.High],
                  stats := [(Regime.High,
                    RegimeStats.mk (some 0) (some 0) (some 0) (some 0))],
                  mdd := [(Regime.High, some 0)], plotted := false } := by
  have h1 : lnStub ((1:ℚ) / 1) = some 0 := by norm_num [lnStub]
  have e1 : (log_return lnStub [(1:ℚ), 1, 1]).filterMap id = [0, 0] := by
    rw [show log_return lnStub [(1:ℚ), 1, 1] = [some 0, some 0] from by
      show [lnStub ((1:ℚ) / 1), lnStub ((1:ℚ) / 1)] = [some 0, some 0]
      rw [h1]]
    rfl
  have e5 : mkRegimeStats [(0:ℚ), 0] = RegimeStats.mk (some 0) (some 0) (some 0) (some 0) := by
    unfold mkRegimeStats meanOpt sampleVarOpt
    norm_num
  have e7 : max_drawdown [(0:ℚ), 0] = some 0 := by
    simp [max_drawdown, drawdowns, cumulative, cumprodAux, cummax, cummaxAux, minOpt, ddOf]
  show Except.ok (pipelineFromCloses false lnStub [(1:ℚ), 1, 1]) = _
  unfold pipelineFromCloses
  simp only [e1]
  rw [show rolling_vol_sq window [(0:ℚ), 0] = [none, none] from rfl]
  rw [show volatility_regime [(none : Option ℚ), none] = [Regime.High, Regime.High] from rfl]
  rw [show statsTable [(0:ℚ), 0] [Regime.High, Regime.High] =
    [(Regime.High, mkRegimeStats [0, 0])] from rfl]
  rw [show mddTable [(0:ℚ), 0] [Regime.High, Regime.High] =
    [(Regime.High, max_drawdown [0, 0])] from rfl]
  rw [e5, e7]
  rfl
